import Mathlib

/-!
# Verification of the BookTheme scoring and assignment engine

Shallow embedding of `src/lib/matchThemeSong.ts` (scoring engine) and its data
model from `src/lib/types.ts`.

Modelling conventions:
* JavaScript numbers are modelled by exact arithmetic: entity fields and all
  computations that stay rational are `ℚ`; `cosineSimilarity` (which uses
  `Math.sqrt`) and everything downstream of it (total scores, factor
  contributions) live in `ℝ`.
* `Array.prototype.sort(cmp)` is mandated stable by ECMAScript; it is modelled
  by `List.mergeSort le` with `le a b := cmp a b ≤ 0`, which is stable.
* A JavaScript `Map` is an insertion-ordered association list, a `Set` an
  insertion-ordered duplicate-free list; `set`/`add` follow the JS semantics.
* Presentation-only fields of `Book` and `Song` (title, author, cover/blurb,
  Spotify URL) are never read by the engine and are omitted.
-/

/-- The 9 vibe dimensions (`VibeVector` in `types.ts`). -/
structure VibeVector where
  melancholy : ℚ
  intimacy : ℚ
  intensity : ℚ
  hope : ℚ
  tension : ℚ
  warmth : ℚ
  nostalgia : ℚ
  eeriness : ℚ
  pace : ℚ

/-- Spotify-style audio features (`AudioFeatures` in `types.ts`). -/
structure AudioFeatures where
  energy : ℚ
  valence : ℚ
  tempo : ℚ
  acousticness : ℚ
  danceability : ℚ

/-- Book data model (engine-relevant fields of `Book` in `types.ts`). -/
structure Book where
  id : String
  vibeTags : List String
  vibeVector : VibeVector

/-- Song data model (engine-relevant fields of `Song` in `types.ts`). -/
structure Song where
  id : String
  vibeTags : List String
  audio : AudioFeatures

/-- Classification tag of a scoring factor (`'positive' | 'negative' | 'neutral'`). -/
inductive FactorType where
  | positive
  | negative
  | neutral
deriving DecidableEq

/-- Human-readable explanation unit (`ScoringFactor` in `types.ts`).
The contribution is a score value, hence real. -/
structure ScoringFactor where
  factor : String
  contribution : ℝ
  type : FactorType

/-- Result of scoring one (book, song) pair (`MatchResult` in `types.ts`). -/
structure MatchResult where
  song : Song
  totalScore : ℝ
  tagScore : ℚ
  vectorScore : ℝ
  penaltyScore : ℚ
  topFactors : List ScoringFactor

/-- `const TAG_WEIGHT = 0.55`. -/
def TAG_WEIGHT : ℚ := 0.55

/-- `const VECTOR_WEIGHT = 0.35`. -/
def VECTOR_WEIGHT : ℚ := 0.35

/-- `deriveVibeVector` from `matchThemeSong.ts`: derives a vibe vector from
song audio features.  The intermediate `warmthCalc` is computed once and reused
in the `eeriness` formula, exactly as in the source. -/
def deriveVibeVector (audio : AudioFeatures) : VibeVector :=
  let warmthCalc := audio.acousticness * 0.5 + audio.valence * 0.3 + (1 - audio.energy) * 0.2
  { melancholy := 1 - audio.valence
    intimacy := audio.acousticness * 0.6 + (1 - audio.energy) * 0.4
    intensity := audio.energy
    hope := audio.valence * 0.7 + audio.energy * 0.3
    tension := audio.energy * 0.5 + (1 - audio.valence) * 0.5
    warmth := warmthCalc
    nostalgia := audio.acousticness * 0.4 + (1 - audio.tempo) * 0.3 + (1 - audio.energy) * 0.3
    eeriness := (1 - audio.valence) * 0.5 + (1 - audio.danceability) * 0.3 + (1 - warmthCalc) * 0.2
    pace := audio.tempo * 0.6 + audio.energy * 0.4 }

/-- `String.toLowerCase()` lower-cases each character in place
(`s.map Char.toLower`); modelled over the underlying character list, which the
kernel can evaluate, unlike `String.map`. -/
def strToLower (s : String) : String := ⟨s.data.map Char.toLower⟩

/-- `jaccardSimilarity` from `matchThemeSong.ts`.  A JS `Set` built from an
array is the duplicate-free list of its elements; only sizes and membership
are used, so `List.dedup` is a faithful model. -/
def jaccardSimilarity (tags1 tags2 : List String) : ℚ :=
  let set1 := (tags1.map strToLower).dedup
  let set2 := (tags2.map strToLower).dedup
  let intersection := set1.filter fun x => decide (x ∈ set2)
  let union := (set1 ++ set2).dedup
  if union.length = 0 then 0 else (intersection.length : ℚ) / (union.length : ℚ)

/-- `getOverlappingTags` from `matchThemeSong.ts`: case-insensitive overlap,
in the lower-cased form. -/
def getOverlappingTags (tags1 tags2 : List String) : List String :=
  let set1 := (tags1.map strToLower).dedup
  let set2 := (tags2.map strToLower).dedup
  set1.filter fun x => decide (x ∈ set2)

/-- The fixed iteration order of the 9 dimensions (the `keys` array in
`cosineSimilarity` and `getTopMatchingDimensions`), as a component function. -/
def VibeVector.comp (v : VibeVector) : Fin 9 → ℚ :=
  ![v.melancholy, v.intimacy, v.intensity, v.hope, v.tension,
    v.warmth, v.nostalgia, v.eeriness, v.pace]

/-- Names of the 9 dimensions in the fixed iteration order. -/
def vibeKeyName : Fin 9 → String :=
  !["melancholy", "intimacy", "intensity", "hope", "tension",
    "warmth", "nostalgia", "eeriness", "pace"]

/-- `cosineSimilarity` from `matchThemeSong.ts`: the loop over `keys`
accumulates the dot product and the squared magnitudes; then both magnitudes
are square-rooted, and the function returns 0 when either magnitude is 0. -/
noncomputable def cosineSimilarity (vec1 vec2 : VibeVector) : ℝ :=
  let dotProduct : ℚ := ∑ i, vec1.comp i * vec2.comp i
  let magnitude1 : ℝ := Real.sqrt ((∑ i, vec1.comp i ^ 2 : ℚ) : ℝ)
  let magnitude2 : ℝ := Real.sqrt ((∑ i, vec2.comp i ^ 2 : ℚ) : ℝ)
  if magnitude1 = 0 ∨ magnitude2 = 0 then 0
  else (dotProduct : ℝ) / (magnitude1 * magnitude2)

/-- One entry of `getTopMatchingDimensions`. -/
structure DimensionMatch where
  dimension : String
  bookValue : ℚ
  songValue : ℚ
  similarity : ℚ

/-- Comparator `(a, b) => b.similarity - a.similarity` of
`getTopMatchingDimensions`: `a` may precede `b` iff the comparator is `≤ 0`. -/
def dimLE (a b : DimensionMatch) : Bool := decide (b.similarity ≤ a.similarity)

/-- `getTopMatchingDimensions` from `matchThemeSong.ts`: similarity per
dimension is `1 - |bookValue - songValue|`; sort descending (stable) and keep
the first `n`. -/
def getTopMatchingDimensions (bookVec songVec : VibeVector) (n : Nat := 3) :
    List DimensionMatch :=
  let similarities := (List.finRange 9).map fun i =>
    { dimension := vibeKeyName i
      bookValue := bookVec.comp i
      songValue := songVec.comp i
      similarity := 1 - |bookVec.comp i - songVec.comp i| : DimensionMatch }
  (similarities.mergeSort dimLE).take n

/-- Result of `calculatePenalties`. -/
structure PenaltyResult where
  total : ℚ
  factors : List ScoringFactor

/-- `calculatePenalties` from `matchThemeSong.ts`: the five penalty rules,
applied in order; every rule whose guard holds adds its constant to the total
and pushes its factor. -/
def calculatePenalties (book : Book) (songVec : VibeVector) (audio : AudioFeatures) :
    PenaltyResult :=
  let acc0 : ℚ × List ScoringFactor := (0, [])
  let acc1 :=
    if book.vibeVector.melancholy > 0.7 ∧ audio.valence > 0.7 then
      (acc0.1 + (-0.10), acc0.2 ++ [⟨"Song too upbeat for melancholic book", (-0.10 : ℝ), .negative⟩])
    else acc0
  let acc2 :=
    if book.vibeVector.tension > 0.7 ∧ audio.energy < 0.3 then
      (acc1.1 + (-0.05), acc1.2 ++ [⟨"Song too mellow for high-tension book", (-0.05 : ℝ), .negative⟩])
    else acc1
  let acc3 :=
    if book.vibeVector.eeriness > 0.7 ∧ songVec.warmth > 0.7 then
      (acc2.1 + (-0.08), acc2.2 ++ [⟨"Song too warm for eerie book", (-0.08 : ℝ), .negative⟩])
    else acc2
  let acc4 :=
    if book.vibeVector.hope > 0.7 ∧ audio.valence < 0.2 then
      (acc3.1 + (-0.07), acc3.2 ++ [⟨"Song too sad for hopeful book", (-0.07 : ℝ), .negative⟩])
    else acc3
  let acc5 :=
    if book.vibeVector.intensity > 0.8 ∧ audio.energy < 0.25 then
      (acc4.1 + (-0.05), acc4.2 ++ [⟨"Song too mellow for intense book", (-0.05 : ℝ), .negative⟩])
    else acc4
  ⟨acc5.1, acc5.2⟩

/-- Comparator `(a, b) => Math.abs(b.contribution) - Math.abs(a.contribution)`
of `generateScoringFactors`: `a` may precede `b` iff the comparator is `≤ 0`. -/
noncomputable def factorLE (a b : ScoringFactor) : Bool :=
  decide (|b.contribution| ≤ |a.contribution|)

/-- `generateScoringFactors` from `matchThemeSong.ts`: tag-overlap factor,
then up to two strong-alignment factors, then the penalty factors; finally
sort by descending absolute contribution (stable) and keep the first 3.
The dimension label of the source lower-cases a capitalised copy of the key,
yielding the key itself. -/
noncomputable def generateScoringFactors (book : Book) (song : Song) (songVec : VibeVector)
    (tagScore : ℚ) (vectorScore : ℝ) (penaltyFactors : List ScoringFactor) :
    List ScoringFactor :=
  let overlappingTags := getOverlappingTags book.vibeTags song.vibeTags
  let tagFactors : List ScoringFactor :=
    if overlappingTags.length > 0 then
      [⟨"Shared vibes: " ++ String.intercalate ", " (overlappingTags.take 3),
        (tagScore : ℝ) * (TAG_WEIGHT : ℝ), .positive⟩]
    else []
  let topDimensions := getTopMatchingDimensions book.vibeVector songVec 2
  let dimFactors : List ScoringFactor :=
    (topDimensions.filter fun dim => decide (dim.similarity > 0.8)).map fun dim =>
      ⟨"Strong " ++ dim.dimension ++ " alignment",
        vectorScore * (VECTOR_WEIGHT : ℝ) * 0.3, .positive⟩
  ((tagFactors ++ dimFactors ++ penaltyFactors).mergeSort factorLE).take 3

/-- `getMatchResultForSong` from `matchThemeSong.ts`: scores one (book, song)
pair.  `matchThemeSong`, `getTopMatches` and `matchAllBooksUniquely` inline
this very computation verbatim; the embedding shares it. -/
noncomputable def getMatchResultForSong (book : Book) (song : Song) : MatchResult :=
  let songVibeVector := deriveVibeVector song.audio
  let tagScore := jaccardSimilarity book.vibeTags song.vibeTags
  let vectorScore := cosineSimilarity book.vibeVector songVibeVector
  let penalties := calculatePenalties book songVibeVector song.audio
  let totalScore : ℝ :=
    (tagScore : ℝ) * (TAG_WEIGHT : ℝ) + vectorScore * (VECTOR_WEIGHT : ℝ) + (penalties.total : ℝ)
  let topFactors := generateScoringFactors book song songVibeVector tagScore vectorScore penalties.factors
  { song := song
    totalScore := totalScore
    tagScore := tagScore
    vectorScore := vectorScore
    penaltyScore := penalties.total
    topFactors := topFactors }

/-- The `for (const song of songs)` loop of `matchThemeSong`, carrying the
mutable `bestMatch` (initially `null`): a candidate replaces the current best
only when its total score is strictly greater. -/
noncomputable def bestMatchLoop (book : Book) : List Song → Option MatchResult → Option MatchResult
  | [], bestMatch => bestMatch
  | song :: rest, bestMatch =>
    let result := getMatchResultForSong book song
    match bestMatch with
    | none => bestMatchLoop book rest (some result)
    | some best =>
      if result.totalScore > best.totalScore then bestMatchLoop book rest (some result)
      else bestMatchLoop book rest (some best)

/-- `matchThemeSong` from `matchThemeSong.ts`: best match over all songs;
`throw new Error('No songs available for matching')` when none was produced
is modelled as `Except.error`. -/
noncomputable def matchThemeSong (book : Book) (songs : List Song) : Except String MatchResult :=
  match bestMatchLoop book songs none with
  | none => .error "No songs available for matching"
  | some bestMatch => .ok bestMatch

/-- One element of the `allPairs` array of `matchAllBooksUniquely`. -/
structure ScoredPair where
  book : Book
  song : Song
  result : MatchResult

/-- The nested `for (const book of books) for (const song of songs)` loops of
`matchAllBooksUniquely`: the full cross product in book-major, song-minor
order, each pair carrying its `MatchResult`. -/
noncomputable def allPairs (books : List Book) (songs : List Song) : List ScoredPair :=
  books.flatMap fun book => songs.map fun song =>
    { book := book, song := song, result := getMatchResultForSong book song }

/-- Comparator `(a, b) => b.result.totalScore - a.result.totalScore` of
`matchAllBooksUniquely`: `a` may precede `b` iff the comparator is `≤ 0`. -/
noncomputable def pairLE (a b : ScoredPair) : Bool :=
  decide (b.result.totalScore ≤ a.result.totalScore)

/-- The sorted pair list of `matchAllBooksUniquely` (stable descending sort
by total score). -/
noncomputable def sortedPairs (books : List Book) (songs : List Song) : List ScoredPair :=
  (allPairs books songs).mergeSort pairLE

/-- `Set.add` of JavaScript on a duplicate-free insertion-ordered list:
appends the element unless already present. -/
def setAdd (s : List String) (x : String) : List String :=
  if x ∈ s then s else s ++ [x]

/-- `Map.set` of JavaScript on an insertion-ordered association list:
overwrites in place when the key exists, else appends. -/
def mapSet (m : List (String × MatchResult)) (k : String) (v : MatchResult) :
    List (String × MatchResult) :=
  if k ∈ m.map Prod.fst then m.map (fun e => if e.1 = k then (k, v) else e)
  else m ++ [(k, v)]

/-- The mutable state of the greedy assignment phase of
`matchAllBooksUniquely`: `assignments`, `usedSongIds`, `assignedBookIds`. -/
structure AssignState where
  assignments : List (String × MatchResult)
  usedSongIds : List String
  assignedBookIds : List String

/-- The `for (const pair of allPairs)` commitment loop of
`matchAllBooksUniquely`: skip a pair whose book is already assigned or whose
song is already used, otherwise commit it; break once `assignedBookIds` has
reached `books.length`. -/
noncomputable def greedyAssign (nBooks : Nat) : List ScoredPair → AssignState → AssignState
  | [], st => st
  | pair :: rest, st =>
    if pair.book.id ∈ st.assignedBookIds ∨ pair.song.id ∈ st.usedSongIds then
      greedyAssign nBooks rest st
    else
      let st' : AssignState :=
        { assignments := mapSet st.assignments pair.book.id pair.result
          usedSongIds := setAdd st.usedSongIds pair.song.id
          assignedBookIds := setAdd st.assignedBookIds pair.book.id }
      if st'.assignedBookIds.length = nBooks then st'
      else greedyAssign nBooks rest st'

/-- `matchAllBooksUniquely` from `matchThemeSong.ts`: score the cross
product, sort descending by total score (stable), then greedily commit
available pairs; returns the book-id → MatchResult map. -/
noncomputable def matchAllBooksUniquely (books : List Book) (songs : List Song) :
    List (String × MatchResult) :=
  (greedyAssign books.length (sortedPairs books songs) ⟨[], [], []⟩).assignments

/-- Modelled from the spec, §4.5: the greedy unique-assignment algorithm with
the tie-break made explicit — attach the original enumeration index to every
scored pair, sort by the linear order "greater total score first, equal scores
by enumeration order", drop the indices, and run the same single-pass
commitment walk. -/
noncomputable def assignUniqueSpec (books : List Book) (songs : List Song) :
    List (String × MatchResult) :=
  let pairs := allPairs books songs
  let sorted := ((pairs.enum.mergeSort (List.enumLE pairLE)).map fun p => p.2)
  (greedyAssign books.length sorted ⟨[], [], []⟩).assignments

/-!
## Runtime model for malformed entities

TypeScript's types exclude malformed entities statically, but at runtime the
engine computes on whatever values are present: reading an absent field gives
`undefined`, which behaves as NaN in arithmetic, and every comparison
involving NaN (or `undefined`) is false.  To reason about the engine's
behaviour on a malformed entity (a required numeric field absent or
non-numeric), the scoring pipeline is replicated below over `JNum`
(`Option ℝ`), where `none` models NaN/`undefined`.  No function of this
pipeline can fail: the source contains no validation and no `throw` on this
path.
-/

/-- A runtime JavaScript numeric value: `some x` a (finite) number, `none`
the NaN produced by arithmetic on an absent (`undefined`) or non-numeric
required field. -/
def JNum : Type := Option ℝ

/-- JS `+` with NaN propagation. -/
noncomputable def jadd : JNum → JNum → JNum
  | some a, some b => some (a + b)
  | _, _ => none

/-- JS binary `-` with NaN propagation. -/
noncomputable def jsub : JNum → JNum → JNum
  | some a, some b => some (a - b)
  | _, _ => none

/-- JS `*` with NaN propagation. -/
noncomputable def jmul : JNum → JNum → JNum
  | some a, some b => some (a * b)
  | _, _ => none

/-- JS `/` with NaN propagation.  The engine guards every division by a
zero-test of the denominator, so the division-by-zero case (±Infinity or NaN
in JS) is unreachable and collapsed to `none`. -/
noncomputable def jdiv : JNum → JNum → JNum
  | some a, some b => if b = 0 then none else some (a / b)
  | _, _ => none

/-- JS `x ** 2` as used in `cosineSimilarity`. -/
noncomputable def jsq (a : JNum) : JNum := jmul a a

/-- JS `Math.sqrt`: NaN on NaN and on negative input. -/
noncomputable def jsqrt : JNum → JNum
  | some a => if a < 0 then none else some (Real.sqrt a)
  | none => none

/-- JS `Math.abs` (NaN on NaN). -/
noncomputable def jabs : JNum → JNum
  | some a => some |a|
  | none => none

/-- JS `<`: false whenever either side is NaN/`undefined`. -/
def jltP : JNum → JNum → Prop
  | some a, some b => a < b
  | _, _ => False

noncomputable instance : DecidableRel jltP := fun _ _ => Classical.propDecidable _

/-- JS `>`: false whenever either side is NaN/`undefined`. -/
def jgtP : JNum → JNum → Prop
  | some a, some b => a > b
  | _, _ => False

noncomputable instance : DecidableRel jgtP := fun _ _ => Classical.propDecidable _

/-- JS `===` on numbers: false whenever either side is NaN/`undefined`. -/
def jeqP : JNum → JNum → Prop
  | some a, some b => a = b
  | _, _ => False

noncomputable instance : DecidableRel jeqP := fun _ _ => Classical.propDecidable _

/-- Boolean `≤` on runtime numbers for sort comparators; comparisons with
NaN are false.  (ECMAScript leaves the order produced by an inconsistent,
NaN-returning comparator implementation-defined; any fixed choice here is as
good, and the inputs considered below never sort two NaN contributions.) -/
noncomputable def jleB : JNum → JNum → Bool
  | some a, some b => decide (a ≤ b)
  | _, _ => false

/-- Boolean JS `>` against a constant threshold, for runtime guards. -/
noncomputable def jgtB : JNum → JNum → Bool
  | some a, some b => decide (a > b)
  | _, _ => false

/-- Runtime vibe vector: fields that may be absent/non-numeric. -/
structure JVibeVector where
  melancholy : JNum
  intimacy : JNum
  intensity : JNum
  hope : JNum
  tension : JNum
  warmth : JNum
  nostalgia : JNum
  eeriness : JNum
  pace : JNum

/-- Runtime audio features: fields that may be absent/non-numeric. -/
structure JAudioFeatures where
  energy : JNum
  valence : JNum
  tempo : JNum
  acousticness : JNum
  danceability : JNum

/-- Runtime book. -/
structure JBook where
  id : String
  vibeTags : List String
  vibeVector : JVibeVector

/-- Runtime song. -/
structure JSong where
  id : String
  vibeTags : List String
  audio : JAudioFeatures

/-- Runtime scoring factor. -/
structure JScoringFactor where
  factor : String
  contribution : JNum
  type : FactorType

/-- Runtime match result. -/
structure JMatchResult where
  song : JSong
  totalScore : JNum
  tagScore : ℚ
  vectorScore : JNum
  penaltyScore : ℝ
  topFactors : List JScoringFactor

/-- `deriveVibeVector` under runtime semantics. -/
noncomputable def deriveVibeVectorJ (audio : JAudioFeatures) : JVibeVector :=
  let warmthCalc :=
    jadd (jadd (jmul audio.acousticness (some 0.5)) (jmul audio.valence (some 0.3)))
      (jmul (jsub (some 1) audio.energy) (some 0.2))
  { melancholy := jsub (some 1) audio.valence
    intimacy := jadd (jmul audio.acousticness (some 0.6)) (jmul (jsub (some 1) audio.energy) (some 0.4))
    intensity := audio.energy
    hope := jadd (jmul audio.valence (some 0.7)) (jmul audio.energy (some 0.3))
    tension := jadd (jmul audio.energy (some 0.5)) (jmul (jsub (some 1) audio.valence) (some 0.5))
    warmth := warmthCalc
    nostalgia := jadd (jadd (jmul audio.acousticness (some 0.4)) (jmul (jsub (some 1) audio.tempo) (some 0.3)))
      (jmul (jsub (some 1) audio.energy) (some 0.3))
    eeriness := jadd (jadd (jmul (jsub (some 1) audio.valence) (some 0.5))
      (jmul (jsub (some 1) audio.danceability) (some 0.3)))
      (jmul (jsub (some 1) warmthCalc) (some 0.2))
    pace := jadd (jmul audio.tempo (some 0.6)) (jmul audio.energy (some 0.4)) }

/-- `cosineSimilarity` under runtime semantics; the accumulation loop over
the 9 keys is unrolled in its fixed order. -/
noncomputable def cosineSimilarityJ (vec1 vec2 : JVibeVector) : JNum :=
  let dotProduct :=
    jadd (jadd (jadd (jadd (jadd (jadd (jadd (jadd (jadd (some 0)
      (jmul vec1.melancholy vec2.melancholy)) (jmul vec1.intimacy vec2.intimacy))
      (jmul vec1.intensity vec2.intensity)) (jmul vec1.hope vec2.hope))
      (jmul vec1.tension vec2.tension)) (jmul vec1.warmth vec2.warmth))
      (jmul vec1.nostalgia vec2.nostalgia)) (jmul vec1.eeriness vec2.eeriness))
      (jmul vec1.pace vec2.pace)
  let magnitude1 :=
    jsqrt (jadd (jadd (jadd (jadd (jadd (jadd (jadd (jadd (jadd (some 0)
      (jsq vec1.melancholy)) (jsq vec1.intimacy)) (jsq vec1.intensity)) (jsq vec1.hope))
      (jsq vec1.tension)) (jsq vec1.warmth)) (jsq vec1.nostalgia)) (jsq vec1.eeriness))
      (jsq vec1.pace))
  let magnitude2 :=
    jsqrt (jadd (jadd (jadd (jadd (jadd (jadd (jadd (jadd (jadd (some 0)
      (jsq vec2.melancholy)) (jsq vec2.intimacy)) (jsq vec2.intensity)) (jsq vec2.hope))
      (jsq vec2.tension)) (jsq vec2.warmth)) (jsq vec2.nostalgia)) (jsq vec2.eeriness))
      (jsq vec2.pace))
  if jeqP magnitude1 (some 0) ∨ jeqP magnitude2 (some 0) then some 0
  else jdiv dotProduct (jmul magnitude1 magnitude2)

/-- Runtime dimension-match entry of `getTopMatchingDimensions`. -/
structure JDimensionMatch where
  dimension : String
  bookValue : JNum
  songValue : JNum
  similarity : JNum

/-- Runtime component access in the fixed key order. -/
def JVibeVector.comp (v : JVibeVector) : Fin 9 → JNum :=
  ![v.melancholy, v.intimacy, v.intensity, v.hope, v.tension,
    v.warmth, v.nostalgia, v.eeriness, v.pace]

/-- `getTopMatchingDimensions` under runtime semantics. -/
noncomputable def getTopMatchingDimensionsJ (bookVec songVec : JVibeVector) (n : Nat := 3) :
    List JDimensionMatch :=
  let similarities := (List.finRange 9).map fun i =>
    { dimension := vibeKeyName i
      bookValue := bookVec.comp i
      songValue := songVec.comp i
      similarity := jsub (some 1) (jabs (jsub (bookVec.comp i) (songVec.comp i))) : JDimensionMatch }
  (similarities.mergeSort fun a b => jleB b.similarity a.similarity).take n

/-- `calculatePenalties` under runtime semantics: NaN guards are false, the
running total only ever accumulates literal constants and stays a number. -/
noncomputable def calculatePenaltiesJ (book : JBook) (songVec : JVibeVector)
    (audio : JAudioFeatures) : ℝ × List JScoringFactor :=
  let acc0 : ℝ × List JScoringFactor := (0, [])
  let acc1 :=
    if jgtP book.vibeVector.melancholy (some 0.7) ∧ jgtP audio.valence (some 0.7) then
      (acc0.1 + (-0.10), acc0.2 ++ [⟨"Song too upbeat for melancholic book", some (-0.10), .negative⟩])
    else acc0
  let acc2 :=
    if jgtP book.vibeVector.tension (some 0.7) ∧ jltP audio.energy (some 0.3) then
      (acc1.1 + (-0.05), acc1.2 ++ [⟨"Song too mellow for high-tension book", some (-0.05), .negative⟩])
    else acc1
  let acc3 :=
    if jgtP book.vibeVector.eeriness (some 0.7) ∧ jgtP songVec.warmth (some 0.7) then
      (acc2.1 + (-0.08), acc2.2 ++ [⟨"Song too warm for eerie book", some (-0.08), .negative⟩])
    else acc2
  let acc4 :=
    if jgtP book.vibeVector.hope (some 0.7) ∧ jltP audio.valence (some 0.2) then
      (acc3.1 + (-0.07), acc3.2 ++ [⟨"Song too sad for hopeful book", some (-0.07), .negative⟩])
    else acc3
  let acc5 :=
    if jgtP book.vibeVector.intensity (some 0.8) ∧ jltP audio.energy (some 0.25) then
      (acc4.1 + (-0.05), acc4.2 ++ [⟨"Song too mellow for intense book", some (-0.05), .negative⟩])
    else acc4
  acc5

/-- `generateScoringFactors` under runtime semantics. -/
noncomputable def generateScoringFactorsJ (book : JBook) (song : JSong)
    (songVec : JVibeVector) (tagScore : ℚ) (vectorScore : JNum)
    (penaltyFactors : List JScoringFactor) : List JScoringFactor :=
  let overlappingTags := getOverlappingTags book.vibeTags song.vibeTags
  let tagFactors : List JScoringFactor :=
    if overlappingTags.length > 0 then
      [⟨"Shared vibes: " ++ String.intercalate ", " (overlappingTags.take 3),
        some ((tagScore : ℝ) * (TAG_WEIGHT : ℝ)), .positive⟩]
    else []
  let topDimensions := getTopMatchingDimensionsJ book.vibeVector songVec 2
  let dimFactors : List JScoringFactor :=
    (topDimensions.filter fun dim => jgtB dim.similarity (some 0.8)).map fun dim =>
      ⟨"Strong " ++ dim.dimension ++ " alignment",
        jmul (jmul vectorScore (some (VECTOR_WEIGHT : ℝ))) (some 0.3), .positive⟩
  ((tagFactors ++ dimFactors ++ penaltyFactors).mergeSort
    fun a b => jleB (jabs b.contribution) (jabs a.contribution)).take 3

/-- `getMatchResultForSong` under runtime semantics: never fails; a NaN
produced by a malformed field flows through the arithmetic into the result. -/
noncomputable def getMatchResultForSongJ (book : JBook) (song : JSong) : JMatchResult :=
  let songVibeVector := deriveVibeVectorJ song.audio
  let tagScore := jaccardSimilarity book.vibeTags song.vibeTags
  let vectorScore := cosineSimilarityJ book.vibeVector songVibeVector
  let penalties := calculatePenaltiesJ book songVibeVector song.audio
  let totalScore : JNum :=
    jadd (jadd (some ((tagScore : ℝ) * (TAG_WEIGHT : ℝ)))
      (jmul vectorScore (some (VECTOR_WEIGHT : ℝ)))) (some penalties.1)
  let topFactors := generateScoringFactorsJ book song songVibeVector tagScore vectorScore penalties.2
  { song := song
    totalScore := totalScore
    tagScore := tagScore
    vectorScore := vectorScore
    penaltyScore := penalties.1
    topFactors := topFactors }

/-!
## Concrete sample data

Small concrete entities used to instantiate the theorems below on closed
inputs.
-/

/-- A concrete book vector with non-zero norm. -/
def sampleVector : VibeVector := ⟨1, 0, 0, 0, 0, 0, 0, 0, 0⟩

/-- A concrete well-formed audio profile. -/
def sampleAudio : AudioFeatures := ⟨1/2, 1/10, 1/2, 1/2, 1/2⟩

/-- A concrete well-formed book. -/
def sampleBook : Book := { id := "b1", vibeTags := ["dark", "stormy"], vibeVector := sampleVector }

/-- A concrete well-formed song. -/
def sampleSong : Song := { id := "s1", vibeTags := ["dark"], audio := sampleAudio }

/-- A book firing penalty rules 1 (melancholy) and 3 (eeriness) only. -/
def penaltyBook : Book :=
  { id := "bp", vibeTags := [], vibeVector := ⟨4/5, 0, 0, 0, 0, 0, 0, 4/5, 0⟩ }

/-- A derived song vector with high warmth (fires rule 3). -/
def penaltyVec : VibeVector := ⟨0, 0, 0, 0, 0, 4/5, 0, 0, 0⟩

/-- Audio with high valence (fires rule 1) and mid energy (rules 2/5 off). -/
def penaltyAudio : AudioFeatures := ⟨1/2, 4/5, 1/2, 1/2, 1/2⟩

/-- Runtime book for the malformed-entity counterexample: well-formed, with
the all-zero mood vector. -/
noncomputable def cexBookJ : JBook :=
  { id := "book-1", vibeTags := ["dark"]
    vibeVector := ⟨some 0, some 0, some 0, some 0, some 0, some 0, some 0, some 0, some 0⟩ }

/-- Runtime song for the malformed-entity counterexample: malformed, its
required `audio.energy` field is absent (`undefined`, i.e. `none`). -/
noncomputable def cexSongJ : JSong :=
  { id := "song-1", vibeTags := ["dark"]
    audio := { energy := none, valence := some 0.5, tempo := some 0.5
               acousticness := some 0.5, danceability := some 0.5 } }

/-!
## Theorems
-/

/-- Claim C7: `deriveVector` (`deriveVibeVector`) is pure and total — a plain
function of its input — and computes the 9 mood dimensions by the fixed
linear-combination formulas, with `warmth` computed once and that same value
reused inside the `eeriness` formula; every input whose 5 fields lie in
`[0, 1]` yields an output all of whose 9 fields lie in `[0, 1]`. -/
theorem deriveVibeVector_formulas_range (audio : AudioFeatures) :
    (deriveVibeVector audio).melancholy = 1 - audio.valence ∧
    (deriveVibeVector audio).intimacy = 0.6 * audio.acousticness + 0.4 * (1 - audio.energy) ∧
    (deriveVibeVector audio).intensity = audio.energy ∧
    (deriveVibeVector audio).hope = 0.7 * audio.valence + 0.3 * audio.energy ∧
    (deriveVibeVector audio).tension = 0.5 * audio.energy + 0.5 * (1 - audio.valence) ∧
    (deriveVibeVector audio).warmth =
      0.5 * audio.acousticness + 0.3 * audio.valence + 0.2 * (1 - audio.energy) ∧
    (deriveVibeVector audio).nostalgia =
      0.4 * audio.acousticness + 0.3 * (1 - audio.tempo) + 0.3 * (1 - audio.energy) ∧
    (deriveVibeVector audio).eeriness =
      0.5 * (1 - audio.valence) + 0.3 * (1 - audio.danceability)
        + 0.2 * (1 - (deriveVibeVector audio).warmth) ∧
    (deriveVibeVector audio).pace = 0.6 * audio.tempo + 0.4 * audio.energy ∧
    (0 ≤ audio.energy ∧ audio.energy ≤ 1 → 0 ≤ audio.valence ∧ audio.valence ≤ 1 →
      0 ≤ audio.tempo ∧ audio.tempo ≤ 1 → 0 ≤ audio.acousticness ∧ audio.acousticness ≤ 1 →
      0 ≤ audio.danceability ∧ audio.danceability ≤ 1 →
      (0 ≤ (deriveVibeVector audio).melancholy ∧ (deriveVibeVector audio).melancholy ≤ 1) ∧
      (0 ≤ (deriveVibeVector audio).intimacy ∧ (deriveVibeVector audio).intimacy ≤ 1) ∧
      (0 ≤ (deriveVibeVector audio).intensity ∧ (deriveVibeVector audio).intensity ≤ 1) ∧
      (0 ≤ (deriveVibeVector audio).hope ∧ (deriveVibeVector audio).hope ≤ 1) ∧
      (0 ≤ (deriveVibeVector audio).tension ∧ (deriveVibeVector audio).tension ≤ 1) ∧
      (0 ≤ (deriveVibeVector audio).warmth ∧ (deriveVibeVector audio).warmth ≤ 1) ∧
      (0 ≤ (deriveVibeVector audio).nostalgia ∧ (deriveVibeVector audio).nostalgia ≤ 1) ∧
      (0 ≤ (deriveVibeVector audio).eeriness ∧ (deriveVibeVector audio).eeriness ≤ 1) ∧
      (0 ≤ (deriveVibeVector audio).pace ∧ (deriveVibeVector audio).pace ≤ 1)) := by
  obtain ⟨e, v, t, a, d⟩ := audio
  refine ⟨?_, ?_, ?_, ?_, ?_, ?_, ?_, ?_, ?_, ?_⟩
  case _ => simp only [deriveVibeVector]
  case _ => simp only [deriveVibeVector]; ring
  case _ => simp only [deriveVibeVector]
  case _ => simp only [deriveVibeVector]; ring
  case _ => simp only [deriveVibeVector]; ring
  case _ => simp only [deriveVibeVector]; ring
  case _ => simp only [deriveVibeVector]; ring
  case _ => simp only [deriveVibeVector]; ring
  case _ => simp only [deriveVibeVector]; ring
  rintro ⟨he0, he1⟩ ⟨hv0, hv1⟩ ⟨ht0, ht1⟩ ⟨ha0, ha1⟩ ⟨hd0, hd1⟩
  simp only [deriveVibeVector]
  refine ⟨⟨?_, ?_⟩, ⟨?_, ?_⟩, ⟨?_, ?_⟩, ⟨?_, ?_⟩, ⟨?_, ?_⟩, ⟨?_, ?_⟩, ⟨?_, ?_⟩, ⟨?_, ?_⟩,
    ⟨?_, ?_⟩⟩ <;> linarith

/-- Witness for C7: the range hypotheses hold at the concrete `sampleAudio`
and the theorem applies there. -/
theorem deriveVibeVector_formulas_range_witness :
    (0 ≤ sampleAudio.energy ∧ sampleAudio.energy ≤ 1) ∧
    (0 ≤ (deriveVibeVector sampleAudio).melancholy ∧
      (deriveVibeVector sampleAudio).melancholy ≤ 1) ∧
    (0 ≤ (deriveVibeVector sampleAudio).eeriness ∧
      (deriveVibeVector sampleAudio).eeriness ≤ 1) :=
  ⟨by norm_num [sampleAudio],
    ((deriveVibeVector_formulas_range sampleAudio).2.2.2.2.2.2.2.2.2
      (by norm_num [sampleAudio]) (by norm_num [sampleAudio]) (by norm_num [sampleAudio])
      (by norm_num [sampleAudio]) (by norm_num [sampleAudio])).1,
    ((deriveVibeVector_formulas_range sampleAudio).2.2.2.2.2.2.2.2.2
      (by norm_num [sampleAudio]) (by norm_num [sampleAudio]) (by norm_num [sampleAudio])
      (by norm_num [sampleAudio]) (by norm_num [sampleAudio])).2.2.2.2.2.2.2.1⟩

/-- Claim C6: the penalty total of `evaluate` (`calculatePenalties`) is the sum
of the fixed negative constants of exactly the rules whose strict-inequality
guards hold: 0 when no guard holds, exactly −0.10 when only the
melancholy/valence guard fires, and unclamped, so the disjoint rules 1 and 3
together give −0.18 < −0.15. -/
theorem calculatePenalties_spec (book : Book) (songVec : VibeVector) (audio : AudioFeatures) :
    ((calculatePenalties book songVec audio).total =
      (if book.vibeVector.melancholy > 0.7 ∧ audio.valence > 0.7 then (-0.10 : ℚ) else 0) +
      (if book.vibeVector.tension > 0.7 ∧ audio.energy < 0.3 then (-0.05 : ℚ) else 0) +
      (if book.vibeVector.eeriness > 0.7 ∧ songVec.warmth > 0.7 then (-0.08 : ℚ) else 0) +
      (if book.vibeVector.hope > 0.7 ∧ audio.valence < 0.2 then (-0.07 : ℚ) else 0) +
      (if book.vibeVector.intensity > 0.8 ∧ audio.energy < 0.25 then (-0.05 : ℚ) else 0)) ∧
    (¬(book.vibeVector.melancholy > 0.7 ∧ audio.valence > 0.7) →
      ¬(book.vibeVector.tension > 0.7 ∧ audio.energy < 0.3) →
      ¬(book.vibeVector.eeriness > 0.7 ∧ songVec.warmth > 0.7) →
      ¬(book.vibeVector.hope > 0.7 ∧ audio.valence < 0.2) →
      ¬(book.vibeVector.intensity > 0.8 ∧ audio.energy < 0.25) →
      (calculatePenalties book songVec audio).total = 0) ∧
    ((book.vibeVector.melancholy > 0.7 ∧ audio.valence > 0.7) →
      ¬(book.vibeVector.tension > 0.7 ∧ audio.energy < 0.3) →
      ¬(book.vibeVector.eeriness > 0.7 ∧ songVec.warmth > 0.7) →
      ¬(book.vibeVector.hope > 0.7 ∧ audio.valence < 0.2) →
      ¬(book.vibeVector.intensity > 0.8 ∧ audio.energy < 0.25) →
      (calculatePenalties book songVec audio).total = -0.10) ∧
    ((book.vibeVector.melancholy > 0.7 ∧ audio.valence > 0.7) →
      ¬(book.vibeVector.tension > 0.7 ∧ audio.energy < 0.3) →
      (book.vibeVector.eeriness > 0.7 ∧ songVec.warmth > 0.7) →
      ¬(book.vibeVector.hope > 0.7 ∧ audio.valence < 0.2) →
      ¬(book.vibeVector.intensity > 0.8 ∧ audio.energy < 0.25) →
      (calculatePenalties book songVec audio).total = -0.18) := by
  have htotal : (calculatePenalties book songVec audio).total =
      (if book.vibeVector.melancholy > 0.7 ∧ audio.valence > 0.7 then (-0.10 : ℚ) else 0) +
      (if book.vibeVector.tension > 0.7 ∧ audio.energy < 0.3 then (-0.05 : ℚ) else 0) +
      (if book.vibeVector.eeriness > 0.7 ∧ songVec.warmth > 0.7 then (-0.08 : ℚ) else 0) +
      (if book.vibeVector.hope > 0.7 ∧ audio.valence < 0.2 then (-0.07 : ℚ) else 0) +
      (if book.vibeVector.intensity > 0.8 ∧ audio.energy < 0.25 then (-0.05 : ℚ) else 0) := by
    simp only [calculatePenalties]
    split_ifs <;> norm_num
  refine ⟨htotal, ?_, ?_, ?_⟩
  · intro h1 h2 h3 h4 h5
    rw [htotal, if_neg h1, if_neg h2, if_neg h3, if_neg h4, if_neg h5]
    norm_num
  · intro h1 h2 h3 h4 h5
    rw [htotal, if_pos h1, if_neg h2, if_neg h3, if_neg h4, if_neg h5]
    norm_num
  · intro h1 h2 h3 h4 h5
    rw [htotal, if_pos h1, if_neg h2, if_pos h3, if_neg h4, if_neg h5]
    norm_num

/-- Witness for C6: at `penaltyBook`/`penaltyVec`/`penaltyAudio` exactly the
melancholy/valence and eeriness/warmth guards fire and the total is −0.18. -/
theorem calculatePenalties_spec_witness :
    (penaltyBook.vibeVector.melancholy > 0.7 ∧ penaltyAudio.valence > 0.7) ∧
    (penaltyBook.vibeVector.eeriness > 0.7 ∧ penaltyVec.warmth > 0.7) ∧
    (calculatePenalties penaltyBook penaltyVec penaltyAudio).total = -0.18 :=
  ⟨by norm_num [penaltyBook, penaltyAudio],
    by norm_num [penaltyBook, penaltyVec],
    (calculatePenalties_spec penaltyBook penaltyVec penaltyAudio).2.2.2
      (by norm_num [penaltyBook, penaltyAudio])
      (by norm_num [penaltyBook, penaltyAudio])
      (by norm_num [penaltyBook, penaltyVec])
      (by norm_num [penaltyBook, penaltyAudio])
      (by norm_num [penaltyBook, penaltyAudio])⟩

/-- `List.dedup` does not change the set of elements. -/
theorem toFinset_dedup' {α : Type} [DecidableEq α] (l : List α) :
    l.dedup.toFinset = l.toFinset := by
  ext x
  simp [List.mem_dedup]

/-- `jaccardSimilarity` in terms of finite-set cardinalities of the
lower-cased tag sets. -/
theorem jaccard_eq_card (t1 t2 : List String) :
    jaccardSimilarity t1 t2 =
      if ((t1.map strToLower).toFinset ∪ (t2.map strToLower).toFinset).card = 0 then 0
      else (((t1.map strToLower).toFinset ∩ (t2.map strToLower).toFinset).card : ℚ) /
        (((t1.map strToLower).toFinset ∪ (t2.map strToLower).toFinset).card : ℚ) := by
  simp only [jaccardSimilarity]
  have hU : ((t1.map strToLower).dedup ++ (t2.map strToLower).dedup).dedup.length
      = ((t1.map strToLower).toFinset ∪ (t2.map strToLower).toFinset).card := by
    rw [← List.card_toFinset, List.toFinset_append, toFinset_dedup', toFinset_dedup']
  have hI : (((t1.map strToLower).dedup).filter fun x => decide (x ∈ (t2.map strToLower).dedup)).length
      = ((t1.map strToLower).toFinset ∩ (t2.map strToLower).toFinset).card := by
    rw [← List.toFinset_card_of_nodup ((List.nodup_dedup _).filter _),
        List.toFinset_filter, toFinset_dedup']
    congr 1
    ext x
    simp [List.mem_dedup]
  rw [hU, hI]

/-- Claim C8: `jaccard` (`jaccardSimilarity`) is symmetric and case-insensitive
(`jaccard ["A"] ["a"] = 1`); `jaccard T T = 1` for every non-empty tag list;
and on two empty tag lists it returns the defined value 0 — not NaN (the
model is exact, so a defined rational is returned) and not an error. -/
theorem jaccard_props (t1 t2 T : List String) :
    jaccardSimilarity t1 t2 = jaccardSimilarity t2 t1 ∧
    jaccardSimilarity ["A"] ["a"] = 1 ∧
    (T ≠ [] → jaccardSimilarity T T = 1) ∧
    jaccardSimilarity [] [] = 0 := by
  refine ⟨?_, ?_, ?_, ?_⟩
  · rw [jaccard_eq_card, jaccard_eq_card, Finset.inter_comm, Finset.union_comm]
  · have h : jaccardSimilarity ["A"] ["a"] = ((1:Nat) : ℚ) / ((1:Nat) : ℚ) := by rfl
    rw [h]
    norm_num
  · intro hT
    rw [jaccard_eq_card, Finset.union_self, Finset.inter_self]
    have hne : (T.map strToLower).toFinset.Nonempty := by
      rcases T with _ | ⟨x, rest⟩
      · exact absurd rfl hT
      · exact ⟨strToLower x, by simp⟩
    have hcard : (T.map strToLower).toFinset.card ≠ 0 := by
      simpa [Finset.card_eq_zero, ← Finset.nonempty_iff_ne_empty] using hne
    rw [if_neg hcard, div_self (by exact_mod_cast hcard)]
  · rfl

/-- Witness for C8: the non-emptiness hypothesis holds at `["x"]` and the
theorem applies there. -/
theorem jaccard_props_witness :
    ((["x"] : List String) ≠ []) ∧ jaccardSimilarity ["x"] ["x"] = 1 :=
  ⟨List.cons_ne_nil _ _, (jaccard_props [] [] ["x"]).2.2.1 (List.cons_ne_nil _ _)⟩

/-- Claim C9: `cosine` (`cosineSimilarity`) is symmetric; for every vector of
non-zero Euclidean norm (equivalently, non-zero sum of squared components),
`cosine v v = 1` exactly (the model is exact arithmetic, so no rounding
slack is needed); it returns 0 whenever either argument has zero norm; and
for inputs with all 9 components non-negative the result lies in `[0, 1]`. -/
theorem cosine_props (v1 v2 v : VibeVector) :
    cosineSimilarity v1 v2 = cosineSimilarity v2 v1 ∧
    ((∑ i, v.comp i ^ 2) ≠ 0 → cosineSimilarity v v = 1) ∧
    ((∑ i, v1.comp i ^ 2) = 0 ∨ (∑ i, v2.comp i ^ 2) = 0 → cosineSimilarity v1 v2 = 0) ∧
    ((∀ i, 0 ≤ v1.comp i) → (∀ i, 0 ≤ v2.comp i) →
      0 ≤ cosineSimilarity v1 v2 ∧ cosineSimilarity v1 v2 ≤ 1) := by
  refine ⟨?_, ?_, ?_, ?_⟩
  · simp only [cosineSimilarity]
    have hd : (∑ i, v1.comp i * v2.comp i) = ∑ i, v2.comp i * v1.comp i :=
      Finset.sum_congr rfl fun i _ => mul_comm _ _
    by_cases h : Real.sqrt ((∑ i, v1.comp i ^ 2 : ℚ) : ℝ) = 0 ∨
        Real.sqrt ((∑ i, v2.comp i ^ 2 : ℚ) : ℝ) = 0
    · rw [if_pos h, if_pos (Or.symm h)]
    · rw [if_neg h, if_neg (fun hc => h (Or.symm hc)), hd, mul_comm]
  · intro hS
    simp only [cosineSimilarity]
    have hS0 : (0:ℚ) ≤ ∑ i, v.comp i ^ 2 := Finset.sum_nonneg fun i _ => sq_nonneg _
    have hSpos : (0:ℝ) < ((∑ i, v.comp i ^ 2 : ℚ) : ℝ) := by
      exact_mod_cast lt_of_le_of_ne hS0 (Ne.symm hS)
    have hne : Real.sqrt ((∑ i, v.comp i ^ 2 : ℚ) : ℝ) ≠ 0 :=
      (Real.sqrt_ne_zero'.mpr hSpos)
    rw [if_neg (by push_neg; exact ⟨hne, hne⟩)]
    have hdot : (∑ i, v.comp i * v.comp i) = ∑ i, v.comp i ^ 2 :=
      Finset.sum_congr rfl fun i _ => (sq (v.comp i)).symm
    rw [hdot, Real.mul_self_sqrt hSpos.le]
    exact div_self (by exact_mod_cast hSpos.ne')
  · intro h
    simp only [cosineSimilarity]
    rcases h with h | h
    · rw [if_pos (Or.inl (by rw [h]; simp))]
    · rw [if_pos (Or.inr (by rw [h]; simp))]
  · intro h1 h2
    simp only [cosineSimilarity]
    by_cases h : Real.sqrt ((∑ i, v1.comp i ^ 2 : ℚ) : ℝ) = 0 ∨
        Real.sqrt ((∑ i, v2.comp i ^ 2 : ℚ) : ℝ) = 0
    · rw [if_pos h]
      norm_num
    · rw [if_neg h]
      push_neg at h
      have hm1 : 0 < Real.sqrt ((∑ i, v1.comp i ^ 2 : ℚ) : ℝ) :=
        lt_of_le_of_ne (Real.sqrt_nonneg _) (Ne.symm h.1)
      have hm2 : 0 < Real.sqrt ((∑ i, v2.comp i ^ 2 : ℚ) : ℝ) :=
        lt_of_le_of_ne (Real.sqrt_nonneg _) (Ne.symm h.2)
      have hdotnn : (0:ℚ) ≤ ∑ i, v1.comp i * v2.comp i :=
        Finset.sum_nonneg fun i _ => mul_nonneg (h1 i) (h2 i)
      constructor
      · exact div_nonneg (by exact_mod_cast hdotnn) (mul_pos hm1 hm2).le
      · rw [div_le_one (mul_pos hm1 hm2)]
        have key := Real.sum_mul_le_sqrt_mul_sqrt Finset.univ
          (fun i => (v1.comp i : ℝ)) (fun i => (v2.comp i : ℝ))
        push_cast
        simpa using key

/-- Witness for C9: `sampleVector` has non-zero norm and non-negative
components, and the theorem applies there. -/
theorem cosine_props_witness :
    ((∑ i, sampleVector.comp i ^ 2) ≠ 0) ∧
    cosineSimilarity sampleVector sampleVector = 1 ∧
    (0 ≤ cosineSimilarity sampleVector sampleVector ∧
      cosineSimilarity sampleVector sampleVector ≤ 1) := by
  have hS : (∑ i, sampleVector.comp i ^ 2) ≠ 0 := by
    simp [Fin.sum_univ_succ, VibeVector.comp, sampleVector]
  have hnn : ∀ i, 0 ≤ sampleVector.comp i := by
    intro i
    fin_cases i <;>
      norm_num [VibeVector.comp, sampleVector, Matrix.cons_val_succ, Matrix.cons_val_zero]
  exact ⟨hS, (cosine_props sampleVector sampleVector sampleVector).2.1 hS,
    (cosine_props sampleVector sampleVector sampleVector).2.2.2 hnn hnn⟩

/-- The factor comparator is transitive. -/
theorem factorLE_trans : ∀ a b c : ScoringFactor, factorLE a b → factorLE b c → factorLE a c := by
  intro a b c hab hbc
  simp only [factorLE, decide_eq_true_eq] at *
  exact le_trans hbc hab

/-- The factor comparator is total. -/
theorem factorLE_total : ∀ a b : ScoringFactor, factorLE a b || factorLE b a := by
  intro a b
  simp only [factorLE, Bool.or_eq_true, decide_eq_true_eq]
  exact le_total _ _

/-- Claim C5: every `MatchResult` produced by the engine (all engine entry
points inline the single-pair computation `getMatchResultForSong`) has
`totalScore = tagScore*0.55 + vectorScore*0.35 + penaltyTotal`, and its
`topFactors` list has at most 3 entries, sorted by descending absolute
contribution. -/
theorem scorePair_total_and_factors (book : Book) (song : Song) :
    (getMatchResultForSong book song).totalScore =
      (jaccardSimilarity book.vibeTags song.vibeTags : ℝ) * 0.55 +
      cosineSimilarity book.vibeVector (deriveVibeVector song.audio) * 0.35 +
      ((calculatePenalties book (deriveVibeVector song.audio) song.audio).total : ℝ) ∧
    (getMatchResultForSong book song).topFactors.length ≤ 3 ∧
    List.Pairwise (fun a b => |b.contribution| ≤ |a.contribution|)
      (getMatchResultForSong book song).topFactors := by
  refine ⟨?_, ?_, ?_⟩
  · simp only [getMatchResultForSong, TAG_WEIGHT, VECTOR_WEIGHT]
    norm_num
  · simp only [getMatchResultForSong, generateScoringFactors]
    exact List.length_take_le _ _
  · simp only [getMatchResultForSong, generateScoringFactors]
    refine List.Pairwise.sublist (List.take_sublist _ _) ?_
    refine List.Pairwise.imp ?_ (List.sorted_mergeSort factorLE_trans factorLE_total _)
    intro a b hab
    simpa [factorLE, decide_eq_true_eq] using hab

/-- Claim C10: `assignUnique` (`matchAllBooksUniquely`) on an empty book list
or an empty song list returns the empty mapping without any error, whereas
`findBestMatch` (`matchThemeSong`) on an empty candidate sequence fails. -/
theorem assignUnique_empty_inputs (books : List Book) (songs : List Song) (book : Book) :
    matchAllBooksUniquely [] songs = [] ∧
    matchAllBooksUniquely books [] = [] ∧
    matchThemeSong book [] = .error "No songs available for matching" := by
  refine ⟨?_, ?_, rfl⟩
  · simp [matchAllBooksUniquely, sortedPairs, allPairs, greedyAssign]
  · have h : (books.flatMap fun _ => ([] : List ScoredPair)) = [] := by
      simp
    simp [matchAllBooksUniquely, sortedPairs, allPairs, h, greedyAssign]

/-- Characterisation of the `matchThemeSong` loop with a non-null running
best: it returns some result `r`, no candidate (nor the running best) beats
`r`, and `r` is either the running best (when nothing strictly beat it) or
the first list element that strictly beats the running best and is never
strictly beaten later — first-seen wins on exact ties. -/
theorem bestMatchLoop_spec (book : Book) (l : List Song) (b : MatchResult) :
    ∃ r, bestMatchLoop book l (some b) = some r ∧
      b.totalScore ≤ r.totalScore ∧
      (∀ s ∈ l, (getMatchResultForSong book s).totalScore ≤ r.totalScore) ∧
      ((r = b ∧ ∀ s ∈ l, (getMatchResultForSong book s).totalScore ≤ b.totalScore) ∨
        (∃ i : Fin l.length, r = getMatchResultForSong book (l.get i) ∧
          b.totalScore < r.totalScore ∧
          ∀ j : Fin l.length, j < i →
            (getMatchResultForSong book (l.get j)).totalScore < r.totalScore)) := by
  induction l generalizing b with
  | nil => exact ⟨b, rfl, le_refl _, by simp, Or.inl ⟨rfl, by simp⟩⟩
  | cons s rest ih =>
    by_cases hgt : (getMatchResultForSong book s).totalScore > b.totalScore
    · have hunfold : bestMatchLoop book (s :: rest) (some b)
          = bestMatchLoop book rest (some (getMatchResultForSong book s)) := by
        simp only [bestMatchLoop]
        rw [if_pos hgt]
      obtain ⟨r, heq, hle, hmax, hcase⟩ := ih (getMatchResultForSong book s)
      refine ⟨r, hunfold.trans heq, le_of_lt (lt_of_lt_of_le hgt hle), ?_, ?_⟩
      · intro t ht
        rcases List.mem_cons.mp ht with rfl | ht
        · exact hle
        · exact hmax t ht
      · rcases hcase with ⟨hrb, _⟩ | ⟨i, hri, hlt, hpre⟩
        · refine Or.inr ⟨⟨0, by simp⟩, hrb, ?_, ?_⟩
          · rw [hrb]
            exact hgt
          · intro j hj
            exact absurd hj (Nat.not_lt_zero _)
        · refine Or.inr ⟨i.succ, ?_, lt_trans hgt hlt, ?_⟩
          · rw [List.get_cons_succ']
            exact hri
          · intro j hj
            obtain ⟨jv, hjv⟩ := j
            cases jv with
            | zero => exact hlt
            | succ k =>
              have hk : k < rest.length := by
                simp only [List.length_cons] at hjv
                omega
              have hki : (⟨k, hk⟩ : Fin rest.length) < i := by
                simp only [Fin.lt_def, Fin.val_succ] at hj ⊢
                omega
              simpa using hpre ⟨k, hk⟩ hki
    · have hunfold : bestMatchLoop book (s :: rest) (some b)
          = bestMatchLoop book rest (some b) := by
        simp only [bestMatchLoop]
        rw [if_neg hgt]
      obtain ⟨r, heq, hle, hmax, hcase⟩ := ih b
      have hsb : (getMatchResultForSong book s).totalScore ≤ b.totalScore := not_lt.mp hgt
      refine ⟨r, hunfold.trans heq, hle, ?_, ?_⟩
      · intro t ht
        rcases List.mem_cons.mp ht with rfl | ht
        · exact le_trans hsb hle
        · exact hmax t ht
      · rcases hcase with ⟨hrb, hall⟩ | ⟨i, hri, hlt, hpre⟩
        · refine Or.inl ⟨hrb, ?_⟩
          intro t ht
          rcases List.mem_cons.mp ht with rfl | ht
          · exact hsb
          · exact hall t ht
        · refine Or.inr ⟨i.succ, ?_, hlt, ?_⟩
          · rw [List.get_cons_succ']
            exact hri
          · intro j hj
            obtain ⟨jv, hjv⟩ := j
            cases jv with
            | zero => exact lt_of_le_of_lt hsb hlt
            | succ k =>
              have hk : k < rest.length := by
                simp only [List.length_cons] at hjv
                omega
              have hki : (⟨k, hk⟩ : Fin rest.length) < i := by
                simp only [Fin.lt_def, Fin.val_succ] at hj ⊢
                omega
              simpa using hpre ⟨k, hk⟩ hki

/-- Claim C3: `findBestMatch` (`matchThemeSong`) fails with the NoCandidates
error on an empty song sequence — never a null or sentinel value — and on a
non-empty sequence returns the `MatchResult` of a song whose total score is
maximal, every earlier song scoring strictly less (first-seen wins ties). -/
theorem findBestMatch_spec (book : Book) (songs : List Song) :
    (songs = [] → matchThemeSong book songs = .error "No songs available for matching") ∧
    (songs ≠ [] → ∃ i : Fin songs.length,
      matchThemeSong book songs = .ok (getMatchResultForSong book (songs.get i)) ∧
      (∀ j : Fin songs.length,
        (getMatchResultForSong book (songs.get j)).totalScore ≤
          (getMatchResultForSong book (songs.get i)).totalScore) ∧
      (∀ j : Fin songs.length, j < i →
        (getMatchResultForSong book (songs.get j)).totalScore <
          (getMatchResultForSong book (songs.get i)).totalScore)) := by
  constructor
  · rintro rfl
    rfl
  · intro hne
    rcases songs with _ | ⟨s, rest⟩
    · exact absurd rfl hne
    · obtain ⟨r, heq, hle, hmax, hcase⟩ := bestMatchLoop_spec book rest (getMatchResultForSong book s)
      have hms : matchThemeSong book (s :: rest) = .ok r := by
        simp only [matchThemeSong, bestMatchLoop]
        rw [heq]
      rcases hcase with ⟨hrb, hall⟩ | ⟨i, hri, hlt, hpre⟩
      · refine ⟨⟨0, by simp⟩, by rw [hms, hrb]; rfl, ?_, ?_⟩
        · intro j
          obtain ⟨jv, hjv⟩ := j
          cases jv with
          | zero => exact le_refl _
          | succ k =>
            have hk : k < rest.length := by
              simp only [List.length_cons] at hjv
              omega
            simpa using hall _ (rest.get_mem k hk)
        · intro j hj
          exact absurd hj (Nat.not_lt_zero _)
      · have hget : getMatchResultForSong book ((s :: rest).get i.succ) = r := by
          rw [List.get_cons_succ']
          exact hri.symm
        refine ⟨i.succ, by rw [hms, hget], ?_, ?_⟩
        · intro j
          rw [hget]
          obtain ⟨jv, hjv⟩ := j
          cases jv with
          | zero => exact hle
          | succ k =>
            have hk : k < rest.length := by
              simp only [List.length_cons] at hjv
              omega
            simpa using hmax _ (rest.get_mem k hk)
        · intro j hj
          rw [hget]
          obtain ⟨jv, hjv⟩ := j
          cases jv with
          | zero => exact hlt
          | succ k =>
            have hk : k < rest.length := by
              simp only [List.length_cons] at hjv
              omega
            have hki : (⟨k, hk⟩ : Fin rest.length) < i := by
              simp only [Fin.lt_def, Fin.val_succ] at hj ⊢
              omega
            simpa using hpre ⟨k, hk⟩ hki

/-- Witness for C3: the non-emptiness hypothesis holds at the one-song list
`[sampleSong]` and the theorem applies there. -/
theorem findBestMatch_spec_witness :
    (([sampleSong] : List Song) ≠ []) ∧
    ∃ i : Fin 1,
      matchThemeSong sampleBook [sampleSong]
        = .ok (getMatchResultForSong sampleBook ([sampleSong].get i)) :=
  ⟨List.cons_ne_nil _ _,
    match (findBestMatch_spec sampleBook [sampleSong]).2 (List.cons_ne_nil _ _) with
    | ⟨i, h, _, _⟩ => ⟨i, h⟩⟩

/-- The pair comparator is transitive. -/
theorem pairLE_trans : ∀ a b c : ScoredPair, pairLE a b → pairLE b c → pairLE a c := by
  intro a b c hab hbc
  simp only [pairLE, decide_eq_true_eq] at *
  exact le_trans hbc hab

/-- The pair comparator is total. -/
theorem pairLE_total : ∀ a b : ScoredPair, pairLE a b || pairLE b a := by
  intro a b
  simp only [pairLE, Bool.or_eq_true, decide_eq_true_eq]
  exact le_total _ _

/-- Claim C2: `assignUnique` (`matchAllBooksUniquely`) scores every (book,
song) pair in book-major song-minor enumeration order, sorts all pairs by
descending total score with exact ties broken by that enumeration order
(the stable sort of the source equals the spec-level sort that attaches the
enumeration index as an explicit secondary key), then walks the sorted list
once, committing exactly the pairs whose book and song are both uncommitted
and stopping once every book is committed; as a pure function of its inputs
it is deterministic. -/
theorem assignUnique_algorithm (books : List Book) (songs : List Song) :
    matchAllBooksUniquely books songs = assignUniqueSpec books songs ∧
    List.Pairwise (fun a b : ScoredPair => b.result.totalScore ≤ a.result.totalScore)
      (sortedPairs books songs) ∧
    (sortedPairs books songs).Perm (allPairs books songs) := by
  refine ⟨?_, ?_, ?_⟩
  · simp only [matchAllBooksUniquely, assignUniqueSpec, sortedPairs]
    rw [List.mergeSort_enum]
  · refine List.Pairwise.imp ?_ (List.sorted_mergeSort pairLE_trans pairLE_total _)
    intro a b hab
    simpa [pairLE, decide_eq_true_eq] using hab
  · exact List.mergeSort_perm _ _

/-- Adding a fresh element to a JS set appends it. -/
theorem setAdd_of_not_mem {s : List String} {x : String} (h : x ∉ s) :
    setAdd s x = s ++ [x] := if_neg h

/-- An element is in the set after adding it. -/
theorem mem_setAdd_self (s : List String) (x : String) : x ∈ setAdd s x := by
  by_cases h : x ∈ s
  · simp [setAdd, h]
  · simp [setAdd, h]

/-- Membership is preserved by adding to a JS set. -/
theorem mem_setAdd_of_mem {s : List String} {x y : String} (h : x ∈ s) : x ∈ setAdd s y := by
  by_cases hy : y ∈ s
  · simpa [setAdd, hy]
  · simp [setAdd, hy, h]

/-- Setting a fresh key on a JS map appends the binding. -/
theorem mapSet_of_not_mem {m : List (String × MatchResult)} {k : String} {v : MatchResult}
    (h : k ∉ m.map Prod.fst) : mapSet m k v = m ++ [(k, v)] := if_neg h

/-- Every scored pair of the cross product records the scored song in its
result, and draws its book and song from the input corpora. -/
theorem allPairs_mem (books : List Book) (songs : List Song) :
    ∀ p ∈ allPairs books songs,
      p.book ∈ books ∧ p.song ∈ songs ∧ p.result.song.id = p.song.id := by
  intro p hp
  simp only [allPairs, List.mem_flatMap, List.mem_map] at hp
  obtain ⟨b, hb, s, hs, rfl⟩ := hp
  exact ⟨hb, hs, rfl⟩

/-- The cross product contains the pair of any book and song of the inputs. -/
theorem mem_allPairs (books : List Book) (songs : List Song) {b : Book} {s : Song}
    (hb : b ∈ books) (hs : s ∈ songs) :
    ({ book := b, song := s, result := getMatchResultForSong b s } : ScoredPair)
      ∈ allPairs books songs := by
  simp only [allPairs, List.mem_flatMap, List.mem_map]
  exact ⟨b, hb, s, hs, rfl⟩

/-- Invariant of the greedy commitment loop: `assignedBookIds` and
`usedSongIds` mirror the keys and assigned song ids of the accumulated map,
both duplicate-free, and every binding either was already present or comes
from a committed pair of the走 list. -/
theorem greedyAssign_inv (n : Nat) (L : List ScoredPair) (st : AssignState)
    (hL : ∀ p ∈ L, p.result.song.id = p.song.id)
    (h1 : st.assignedBookIds = st.assignments.map Prod.fst)
    (h2 : st.usedSongIds = st.assignments.map (fun e => e.2.song.id))
    (h3 : st.assignedBookIds.Nodup)
    (h4 : st.usedSongIds.Nodup) :
    (greedyAssign n L st).assignedBookIds = (greedyAssign n L st).assignments.map Prod.fst ∧
    (greedyAssign n L st).usedSongIds
      = (greedyAssign n L st).assignments.map (fun e => e.2.song.id) ∧
    (greedyAssign n L st).assignedBookIds.Nodup ∧
    (greedyAssign n L st).usedSongIds.Nodup ∧
    (∀ e ∈ (greedyAssign n L st).assignments,
      e ∈ st.assignments ∨ ∃ p ∈ L, e = (p.book.id, p.result)) := by
  induction L generalizing st with
  | nil => exact ⟨h1, h2, h3, h4, fun e he => Or.inl he⟩
  | cons q rest ih =>
    by_cases hg : q.book.id ∈ st.assignedBookIds ∨ q.song.id ∈ st.usedSongIds
    · have hstep : greedyAssign n (q :: rest) st = greedyAssign n rest st := by
        simp only [greedyAssign]
        rw [if_pos hg]
      rw [hstep]
      obtain ⟨g1, g2, g3, g4, g5⟩ := ih st (fun p hp => hL p (List.mem_cons_of_mem _ hp)) h1 h2 h3 h4
      exact ⟨g1, g2, g3, g4, fun e he => (g5 e he).imp id
        (fun ⟨p, hp, hep⟩ => ⟨p, List.mem_cons_of_mem _ hp, hep⟩)⟩
    · push_neg at hg
      have hbook : q.book.id ∉ st.assignments.map Prod.fst := h1 ▸ hg.1
      have hsong : q.song.id ∉ st.usedSongIds := hg.2
      have hmapset : mapSet st.assignments q.book.id q.result
          = st.assignments ++ [(q.book.id, q.result)] := mapSet_of_not_mem hbook
      have haddb : setAdd st.assignedBookIds q.book.id
          = st.assignedBookIds ++ [q.book.id] := setAdd_of_not_mem hg.1
      have hadds : setAdd st.usedSongIds q.song.id
          = st.usedSongIds ++ [q.song.id] := setAdd_of_not_mem hg.2
      set st' : AssignState :=
        { assignments := mapSet st.assignments q.book.id q.result
          usedSongIds := setAdd st.usedSongIds q.song.id
          assignedBookIds := setAdd st.assignedBookIds q.book.id } with hst'
      have h1' : st'.assignedBookIds = st'.assignments.map Prod.fst := by
        show setAdd st.assignedBookIds q.book.id
          = (mapSet st.assignments q.book.id q.result).map Prod.fst
        rw [haddb, hmapset, List.map_append, h1]
        rfl
      have h2' : st'.usedSongIds = st'.assignments.map (fun e => e.2.song.id) := by
        show setAdd st.usedSongIds q.song.id
          = (mapSet st.assignments q.book.id q.result).map (fun e => e.2.song.id)
        rw [hadds, hmapset, List.map_append, h2]
        simp [hL q (List.mem_cons_self _ _)]
      have h3' : st'.assignedBookIds.Nodup := by
        show (setAdd st.assignedBookIds q.book.id).Nodup
        rw [haddb]
        simp [List.nodup_append, h3, hg.1]
      have h4' : st'.usedSongIds.Nodup := by
        show (setAdd st.usedSongIds q.song.id).Nodup
        rw [hadds]
        simp [List.nodup_append, h4, hg.2]
      have hmem' : ∀ e ∈ st'.assignments,
          e ∈ st.assignments ∨ ∃ p ∈ q :: rest, e = (p.book.id, p.result) := by
        intro e he
        have he2 : e ∈ mapSet st.assignments q.book.id q.result := he
        rw [hmapset] at he2
        rcases List.mem_append.mp he2 with he3 | he3
        · exact Or.inl he3
        · exact Or.inr ⟨q, List.mem_cons_self _ _, List.mem_singleton.mp he3⟩
      have hstep : greedyAssign n (q :: rest) st
          = if st'.assignedBookIds.length = n then st' else greedyAssign n rest st' := by
        simp only [greedyAssign]
        rw [if_neg (by push_neg; exact hg)]
      rw [hstep]
      by_cases hlen : st'.assignedBookIds.length = n
      · rw [if_pos hlen]
        exact ⟨h1', h2', h3', h4', hmem'⟩
      · rw [if_neg hlen]
        obtain ⟨g1, g2, g3, g4, g5⟩ :=
          ih st' (fun p hp => hL p (List.mem_cons_of_mem _ hp)) h1' h2' h3' h4'
        refine ⟨g1, g2, g3, g4, ?_⟩
        intro e he
        rcases g5 e he with he' | ⟨p, hp, hep⟩
        · exact hmem' e he'
        · exact Or.inr ⟨p, List.mem_cons_of_mem _ hp, hep⟩

/-- Membership in the committed/used sets is monotone along the loop. -/
theorem greedyAssign_mono (n : Nat) (L : List ScoredPair) (st : AssignState) :
    (∀ x, x ∈ st.assignedBookIds → x ∈ (greedyAssign n L st).assignedBookIds) ∧
    (∀ x, x ∈ st.usedSongIds → x ∈ (greedyAssign n L st).usedSongIds) := by
  induction L generalizing st with
  | nil => exact ⟨fun x hx => hx, fun x hx => hx⟩
  | cons q rest ih =>
    by_cases hg : q.book.id ∈ st.assignedBookIds ∨ q.song.id ∈ st.usedSongIds
    · have hstep : greedyAssign n (q :: rest) st = greedyAssign n rest st := by
        simp only [greedyAssign]
        rw [if_pos hg]
      rw [hstep]
      exact ih st
    · set st' : AssignState :=
        { assignments := mapSet st.assignments q.book.id q.result
          usedSongIds := setAdd st.usedSongIds q.song.id
          assignedBookIds := setAdd st.assignedBookIds q.book.id } with hst'
      have hstep : greedyAssign n (q :: rest) st
          = if st'.assignedBookIds.length = n then st' else greedyAssign n rest st' := by
        simp only [greedyAssign]
        rw [if_neg hg]
      rw [hstep]
      by_cases hlen : st'.assignedBookIds.length = n
      · rw [if_pos hlen]
        exact ⟨fun x hx => mem_setAdd_of_mem hx, fun x hx => mem_setAdd_of_mem hx⟩
      · rw [if_neg hlen]
        exact ⟨fun x hx => (ih st').1 x (mem_setAdd_of_mem hx),
          fun x hx => (ih st').2 x (mem_setAdd_of_mem hx)⟩

/-- Every pair of the walked list is accounted for at the end of the loop:
either the loop filled all `n` slots, or the pair's book is committed, or its
song is used. -/
theorem greedyAssign_processed (n : Nat) (L : List ScoredPair) (st : AssignState) :
    ∀ p ∈ L, (greedyAssign n L st).assignedBookIds.length = n ∨
      p.book.id ∈ (greedyAssign n L st).assignedBookIds ∨
      p.song.id ∈ (greedyAssign n L st).usedSongIds := by
  induction L generalizing st with
  | nil => intro p hp; exact absurd hp (List.not_mem_nil _)
  | cons q rest ih =>
    intro p hp
    by_cases hg : q.book.id ∈ st.assignedBookIds ∨ q.song.id ∈ st.usedSongIds
    · have hstep : greedyAssign n (q :: rest) st = greedyAssign n rest st := by
        simp only [greedyAssign]
        rw [if_pos hg]
      rw [hstep]
      rcases List.mem_cons.mp hp with rfl | hp'
      · rcases hg with hgb | hgs
        · exact Or.inr (Or.inl ((greedyAssign_mono n rest st).1 _ hgb))
        · exact Or.inr (Or.inr ((greedyAssign_mono n rest st).2 _ hgs))
      · exact ih st p hp'
    · set st' : AssignState :=
        { assignments := mapSet st.assignments q.book.id q.result
          usedSongIds := setAdd st.usedSongIds q.song.id
          assignedBookIds := setAdd st.assignedBookIds q.book.id } with hst'
      have hq : q.book.id ∈ st'.assignedBookIds := mem_setAdd_self _ _
      have hstep : greedyAssign n (q :: rest) st
          = if st'.assignedBookIds.length = n then st' else greedyAssign n rest st' := by
        simp only [greedyAssign]
        rw [if_neg hg]
      rw [hstep]
      by_cases hlen : st'.assignedBookIds.length = n
      · rw [if_pos hlen]
        rcases List.mem_cons.mp hp with rfl | _
        · exact Or.inr (Or.inl hq)
        · exact Or.inl hlen
      · rw [if_neg hlen]
        rcases List.mem_cons.mp hp with rfl | hp'
        · exact Or.inr (Or.inl ((greedyAssign_mono n rest st').1 _ hq))
        · exact ih st' p hp'

/-- Claim C1: for pairwise-distinct book ids and song ids, the mapping built by
`assignUnique` (`matchAllBooksUniquely`) assigns no song id twice, each book
id at most once, and has at most `min |books| |songs|` entries; when
`|songs| ≥ |books|` it has exactly `|books|` entries (whose song ids are
pairwise distinct by the first conjunct). -/
theorem assignUnique_invariants (books : List Book) (songs : List Song)
    (hb : (books.map Book.id).Nodup) (hs : (songs.map Song.id).Nodup) :
    ((matchAllBooksUniquely books songs).map (fun e => e.2.song.id)).Nodup ∧
    ((matchAllBooksUniquely books songs).map Prod.fst).Nodup ∧
    (matchAllBooksUniquely books songs).length ≤ min books.length songs.length ∧
    (books.length ≤ songs.length →
      (matchAllBooksUniquely books songs).length = books.length) := by
  set L := sortedPairs books songs with hLdef
  set f := greedyAssign books.length L ⟨[], [], []⟩ with hf
  have hm : matchAllBooksUniquely books songs = f.assignments := rfl
  have hLmem : ∀ p ∈ L, p.book ∈ books ∧ p.song ∈ songs ∧ p.result.song.id = p.song.id := by
    intro p hp
    exact allPairs_mem books songs p (List.mem_mergeSort.mp hp)
  obtain ⟨g1, g2, g3, g4, g5⟩ := greedyAssign_inv books.length L ⟨[], [], []⟩
    (fun p hp => (hLmem p hp).2.2) rfl rfl List.nodup_nil List.nodup_nil
  have hentry : ∀ e ∈ f.assignments, ∃ p ∈ L, e = (p.book.id, p.result) := by
    intro e he
    rcases g5 e he with h | h
    · exact absurd h (List.not_mem_nil _)
    · exact h
  have hsubB : f.assignments.map Prod.fst ⊆ books.map Book.id := by
    intro x hx
    obtain ⟨e, he, rfl⟩ := List.mem_map.mp hx
    obtain ⟨p, hp, rfl⟩ := hentry e he
    exact List.mem_map.mpr ⟨p.book, (hLmem p hp).1, rfl⟩
  have hsubS : f.assignments.map (fun e => e.2.song.id) ⊆ songs.map Song.id := by
    intro x hx
    obtain ⟨e, he, rfl⟩ := List.mem_map.mp hx
    obtain ⟨p, hp, rfl⟩ := hentry e he
    exact List.mem_map.mpr ⟨p.song, (hLmem p hp).2.1, ((hLmem p hp).2.2).symm⟩
  have hnodupB : (f.assignments.map Prod.fst).Nodup := g1 ▸ g3
  have hnodupS : (f.assignments.map (fun e => e.2.song.id)).Nodup := g2 ▸ g4
  have hlenB : f.assignments.length ≤ books.length := by
    have h := (hnodupB.subperm hsubB).length_le
    simpa using h
  have hlenS : f.assignments.length ≤ songs.length := by
    have h := (hnodupS.subperm hsubS).length_le
    simpa using h
  refine ⟨?_, ?_, ?_, ?_⟩
  · rw [hm]
    exact hnodupS
  · rw [hm]
    exact hnodupB
  · rw [hm]
    exact le_min hlenB hlenS
  · intro hM
    rw [hm]
    by_contra hne
    have hlt : f.assignments.length < books.length := lt_of_le_of_ne hlenB hne
    have hexB : ∃ b ∈ books, b.id ∉ f.assignedBookIds := by
      by_contra hall
      push_neg at hall
      have hsub : books.map Book.id ⊆ f.assignedBookIds := by
        intro x hx
        obtain ⟨b, hbmem, rfl⟩ := List.mem_map.mp hx
        exact hall b hbmem
      have h := (hb.subperm hsub).length_le
      rw [g1] at h
      simp at h
      rw [← hf] at h
      omega
    obtain ⟨b, hbmem, hbun⟩ := hexB
    have hexS : ∃ s ∈ songs, s.id ∉ f.usedSongIds := by
      by_contra hall
      push_neg at hall
      have hsub : songs.map Song.id ⊆ f.usedSongIds := by
        intro x hx
        obtain ⟨s, hsmem, rfl⟩ := List.mem_map.mp hx
        exact hall s hsmem
      have h := (hs.subperm hsub).length_le
      rw [g2] at h
      simp at h
      rw [← hf] at h
      omega
    obtain ⟨s, hsmem, hsun⟩ := hexS
    have hpair : ({ book := b, song := s, result := getMatchResultForSong b s } : ScoredPair)
        ∈ L := List.mem_mergeSort.mpr (mem_allPairs books songs hbmem hsmem)
    rcases greedyAssign_processed books.length L ⟨[], [], []⟩ _ hpair with hlenn | hin | hin
    · rw [g1] at hlenn
      simp at hlenn
      rw [← hf] at hlenn
      omega
    · exact hbun hin
    · exact hsun hin

/-- Witness for C1: the distinctness hypotheses hold for the one-book,
one-song corpus and the theorem applies there. -/
theorem assignUnique_invariants_witness :
    ([sampleBook].map Book.id).Nodup ∧ ([sampleSong].map Song.id).Nodup ∧
    (matchAllBooksUniquely [sampleBook] [sampleSong]).length = 1 :=
  ⟨by simp, by simp,
    (assignUnique_invariants [sampleBook] [sampleSong] (by simp) (by simp)).2.2.2 (by simp)⟩

/-- Claim C4 counterexample: at a malformed entity — `cexSongJ.audio.energy` is
absent — the runtime scoring pipeline does not fail with an invalid-input
error; it returns a `MatchResult` whose total score is the partial score
`0.55` (full tag score, zero vector score because the zero book vector
short-circuits the cosine, zero penalties because every NaN guard is false). -/
theorem scorePair_malformed_counterexample :
    cexSongJ.audio.energy = none ∧
    (getMatchResultForSongJ cexBookJ cexSongJ).totalScore = some (0.55 : ℝ) := by
  refine ⟨rfl, ?_⟩
  have hsq0 : jsq (some (0 : ℝ)) = some 0 := by
    norm_num [jsq, jmul]
  have hadd00 : jadd (some (0 : ℝ)) (some 0) = some 0 := by
    norm_num [jadd]
  have hvec : cosineSimilarityJ cexBookJ.vibeVector (deriveVibeVectorJ cexSongJ.audio)
      = some 0 := by
    simp only [cosineSimilarityJ, cexBookJ]
    rw [if_pos]
    left
    simp only [hsq0, hadd00, jsqrt]
    norm_num [jeqP, Real.sqrt_zero]
  have hpen : (calculatePenaltiesJ cexBookJ (deriveVibeVectorJ cexSongJ.audio)
      cexSongJ.audio).1 = 0 := by
    simp only [calculatePenaltiesJ, cexBookJ]
    norm_num [jgtP]
  have htag : jaccardSimilarity ["dark"] ["dark"] = ((1 : Nat) : ℚ) / ((1 : Nat) : ℚ) := by
    rfl
  have htagc : jaccardSimilarity cexBookJ.vibeTags cexSongJ.vibeTags = 1 := by
    have h1 : jaccardSimilarity cexBookJ.vibeTags cexSongJ.vibeTags
        = jaccardSimilarity ["dark"] ["dark"] := rfl
    rw [h1, htag]
    norm_num
  simp only [getMatchResultForSongJ]
  rw [htagc, hvec, hpen]
  norm_num [jadd, jmul, TAG_WEIGHT, VECTOR_WEIGHT]

/-- Claim C4, amended: on every well-formed (book, song) pair, `scorePair`
(`getMatchResultForSong`) is total and returns the full `MatchResult` built
from the component scores — it cannot fail there; but on a malformed entity
it does not fail either (see the counterexample): the type system excludes
malformed entities statically and the function performs no runtime check. -/
theorem scorePair_total_on_wellformed (book : Book) (song : Song) :
    (getMatchResultForSong book song).song = song ∧
    (getMatchResultForSong book song).tagScore
      = jaccardSimilarity book.vibeTags song.vibeTags ∧
    (getMatchResultForSong book song).vectorScore
      = cosineSimilarity book.vibeVector (deriveVibeVector song.audio) ∧
    (getMatchResultForSong book song).penaltyScore
      = (calculatePenalties book (deriveVibeVector song.audio) song.audio).total ∧
    (getMatchResultForSong book song).topFactors
      = generateScoringFactors book song (deriveVibeVector song.audio)
          (jaccardSimilarity book.vibeTags song.vibeTags)
          (cosineSimilarity book.vibeVector (deriveVibeVector song.audio))
          (calculatePenalties book (deriveVibeVector song.audio) song.audio).factors :=
  ⟨rfl, rfl, rfl, rfl, rfl⟩
